import Mathlib

/-!
Shallow embedding of the task-board reconciliation core: the board-state hook
(useBoard), the drag handler (App handleDragEnd), the query hook
(useSupabaseQuery) and the store gateway (supabase lib), together with proofs
about the ordering model, the optimistic update protocol and the realtime
resync protocol.
-/

namespace TaskBoard

/-- Priority of a task: the text enum low, medium, high from the tasks schema. -/
inductive Priority where
  | low
  | medium
  | high
deriving DecidableEq, Repr

/-- A row of the tasks table (database.types, tasks Row). -/
structure Task where
  id : String
  title : String
  priority : Priority
  column_id : String
  position : Int
  user_id : String
  created_at : String
  updated_at : String
deriving DecidableEq, Repr

/-- A row of the columns table (database.types, columns Row). -/
structure Column where
  id : String
  title : String
  position : Int
  user_id : String
  created_at : String
  updated_at : String
deriving DecidableEq, Repr

/-- An entry of the batch passed to updateTaskPositions: id, position, column_id. -/
structure TaskUpdate where
  id : String
  position : Int
  column_id : String
deriving DecidableEq, Repr

/-- The partial update accepted by handleUpdateTask and the updateTask gateway. -/
structure TaskPatch where
  title : Option String
  priority : Option Priority
  column_id : Option String
  position : Option Int
deriving DecidableEq, Repr

/-- One remote gateway call attempted by a task mutation handler. -/
inductive RemoteWrite where
  | insertTask (title columnId : String) (priority : Priority) (position : Int)
  | patchTask (id : String) (patch : TaskPatch)
  | deleteTask (id : String)
  | upsertPositions (batch : List TaskUpdate)
deriving DecidableEq, Repr

/-- Net effect of running one task mutation handler: the resulting optimistic
cache, the error surfaced to the caller (none when no error was thrown), and
the remote calls attempted. -/
structure OpResult where
  cache : Option (List Task)
  error : Option String
  writes : List RemoteWrite
deriving DecidableEq, Repr

/-- JS object spread in handleUpdateTask: the fields present in the patch
overwrite the task and updated_at is stamped with the current time. -/
def applyPatch (t : Task) (p : TaskPatch) (now : String) : Task :=
  { t with
    title := p.title.getD t.title
    priority := p.priority.getD t.priority
    column_id := p.column_id.getD t.column_id
    position := p.position.getD t.position
    updated_at := now }

/-- The optimistic setState updater shared by handleMoveTask and
handleReorderTasks: map over the cached tasks and, for each task hit by an
update, take its new position and column and stamp updated_at. -/
def applyUpdates (updates : List TaskUpdate) (now : String) (tasks : List Task) : List Task :=
  tasks.map fun task =>
    match updates.find? (fun u => u.id == task.id) with
    | some u => { task with position := u.position, column_id := u.column_id, updated_at := now }
    | none => task

/-- The batch built by handleMoveTask: every task of the destination column
other than the moved one, shifted up by one when its position is at least the
target position, followed by the moved task at the target position. -/
def moveTaskUpdates (tasks : List Task) (taskId newColumnId : String)
    (newPosition : Int) : List TaskUpdate :=
  let columnTasks := tasks.filter fun t => t.column_id == newColumnId && t.id != taskId
  (columnTasks.map fun task =>
    { id := task.id
      position := if task.position ≥ newPosition then task.position + 1 else task.position
      column_id := newColumnId }) ++
  [{ id := taskId, position := newPosition, column_id := newColumnId }]

/-- Position chosen by handleCreateTask: one past the maximum position among the
destination column tasks, or zero when the column is empty. The nonempty branch
is the JS spread Math.max over the mapped positions. -/
def createTaskPosition (tasks : List Task) (columnId : String) : Int :=
  match tasks.filter (fun t => t.column_id == columnId) with
  | [] => 0
  | t :: rest => rest.foldl (fun m x => max m x.position) t.position + 1

/-- Position chosen by handleCreateColumn: Math.max over the existing column
positions together with the sentinel minus one, plus one; zero when the query
data is null. -/
def handleCreateColumnPosition (columns : Option (List Column)) : Int :=
  match columns with
  | none => 0
  | some cs => cs.foldl (fun m c => max m c.position) (-1) + 1

/-- The success updater of handleCreateTask applied to a populated cache:
replace the temporary task by the server row in place. -/
def commitList (tasks : List Task) (tempId : String) (created : Task) : List Task :=
  tasks.map fun t => if t.id == tempId then created else t

/-- The full success updater of handleCreateTask: on a populated cache replace
in place, on a null cache the server row becomes the whole list. -/
def commitCreatedTask (prev : Option (List Task)) (tempId : String) (created : Task) :
    Option (List Task) :=
  match prev with
  | some tasks => some (commitList tasks tempId created)
  | none => some [created]

/-- handleCreateTask from useBoard: return silently on an unpopulated cache,
compute the position, append a temporary task, call createTask remotely, and
either replace the temporary task by the server row or refetch the server
state on failure, surface the error and rethrow. -/
def handleCreateTask (cache : Option (List Task)) (server : List Task)
    (title columnId : String) (priority : Priority) (tempId : String)
    (created : Task) (now : String) (remoteFails : Bool) : OpResult :=
  match cache with
  | none => { cache := none, error := none, writes := [] }
  | some tasks =>
    let position := createTaskPosition tasks columnId
    let tempTask : Task :=
      { id := tempId, title := title, priority := priority, column_id := columnId
        position := position, user_id := "", created_at := now, updated_at := now }
    let applied := tasks ++ [tempTask]
    if remoteFails then
      { cache := some server, error := some "Failed to create task"
        writes := [RemoteWrite.insertTask title columnId priority position] }
    else
      { cache := commitCreatedTask (some applied) tempId created, error := none
        writes := [RemoteWrite.insertTask title columnId priority position] }

/-- handleUpdateTask from useBoard: guard on the unpopulated cache, apply the
patch optimistically, call updateTask remotely, refetch on failure. -/
def handleUpdateTask (cache : Option (List Task)) (server : List Task)
    (id : String) (patch : TaskPatch) (now : String) (remoteFails : Bool) : OpResult :=
  match cache with
  | none => { cache := none, error := none, writes := [] }
  | some tasks =>
    let applied := tasks.map fun t => if t.id == id then applyPatch t patch now else t
    if remoteFails then
      { cache := some server, error := some "Failed to update task"
        writes := [RemoteWrite.patchTask id patch] }
    else
      { cache := some applied, error := none, writes := [RemoteWrite.patchTask id patch] }

/-- handleDeleteTask from useBoard: guard on the unpopulated cache, remove the
task optimistically, call deleteTask remotely, refetch on failure. -/
def handleDeleteTask (cache : Option (List Task)) (server : List Task)
    (id : String) (_now : String) (remoteFails : Bool) : OpResult :=
  match cache with
  | none => { cache := none, error := none, writes := [] }
  | some tasks =>
    let applied := tasks.filter fun t => t.id != id
    if remoteFails then
      { cache := some server, error := some "Failed to delete task"
        writes := [RemoteWrite.deleteTask id] }
    else
      { cache := some applied, error := none, writes := [RemoteWrite.deleteTask id] }

/-- handleMoveTask from useBoard: guard on the unpopulated cache and on a
missing task id, build the shift batch, apply it optimistically, call
updateTaskPositions remotely, refetch on failure. -/
def handleMoveTask (cache : Option (List Task)) (server : List Task)
    (taskId newColumnId : String) (newPosition : Int) (now : String)
    (remoteFails : Bool) : OpResult :=
  match cache with
  | none => { cache := none, error := none, writes := [] }
  | some tasks =>
    match tasks.find? (fun t => t.id == taskId) with
    | none => { cache := some tasks, error := none, writes := [] }
    | some _ =>
      let updates := moveTaskUpdates tasks taskId newColumnId newPosition
      if remoteFails then
        { cache := some server, error := some "Failed to move task"
          writes := [RemoteWrite.upsertPositions updates] }
      else
        { cache := some (applyUpdates updates now tasks), error := none
          writes := [RemoteWrite.upsertPositions updates] }

/-- handleReorderTasks from useBoard: guard on the unpopulated cache, apply the
caller supplied batch optimistically, call updateTaskPositions remotely,
refetch on failure. -/
def handleReorderTasks (cache : Option (List Task)) (server : List Task)
    (updates : List TaskUpdate) (now : String) (remoteFails : Bool) : OpResult :=
  match cache with
  | none => { cache := none, error := none, writes := [] }
  | some tasks =>
    if remoteFails then
      { cache := some server, error := some "Failed to reorder tasks"
        writes := [RemoteWrite.upsertPositions updates] }
    else
      { cache := some (applyUpdates updates now tasks), error := none
        writes := [RemoteWrite.upsertPositions updates] }

/-- The five task mutations exposed by useBoard. The create constructor carries
the server reply row used on success. -/
inductive TaskOp where
  | create (title columnId : String) (priority : Priority) (tempId : String) (created : Task)
  | update (id : String) (patch : TaskPatch)
  | delete (id : String)
  | move (taskId newColumnId : String) (newPosition : Int)
  | reorder (updates : List TaskUpdate)
deriving DecidableEq, Repr

/-- Dispatcher over the five task mutation handlers of useBoard. -/
def runTaskOp (cache : Option (List Task)) (server : List Task) (op : TaskOp)
    (now : String) (remoteFails : Bool) : OpResult :=
  match op with
  | TaskOp.create title columnId priority tempId created =>
      handleCreateTask cache server title columnId priority tempId created now remoteFails
  | TaskOp.update id patch => handleUpdateTask cache server id patch now remoteFails
  | TaskOp.delete id => handleDeleteTask cache server id now remoteFails
  | TaskOp.move taskId newColumnId newPosition =>
      handleMoveTask cache server taskId newColumnId newPosition now remoteFails
  | TaskOp.reorder updates => handleReorderTasks cache server updates now remoteFails

/-- A record built by the updateTaskPositions gateway upsert: the position
fields plus the required text fields looked up from the store. -/
structure UpsertRecord where
  id : String
  position : Int
  column_id : String
  user_id : String
  title : Option String
  priority : Option Priority
deriving DecidableEq, Repr

/-- Lookup in a JS Map built from a list of key value pairs: the last pair with
the key wins. -/
def jsMapGet {α : Type} (pairs : List (String × α)) (key : String) : Option α :=
  (pairs.reverse.find? fun p => p.1 == key).map fun p => p.2

/-- The records sent by updateTaskPositions: fetch the rows whose ids occur in
the batch, build id keyed maps of their titles and priorities, and emit one
record per update carrying position, column, user and the looked up title and
priority. -/
def updateTaskPositionsRecords (store : List Task) (userId : String)
    (updates : List TaskUpdate) : List UpsertRecord :=
  let currentTasks := store.filter fun t => updates.any fun u => u.id == t.id
  let taskTitles := currentTasks.map fun t => (t.id, t.title)
  let taskPriorities := currentTasks.map fun t => (t.id, t.priority)
  updates.map fun u =>
    { id := u.id, position := u.position, column_id := u.column_id, user_id := userId
      title := jsMapGet taskTitles u.id
      priority := jsMapGet taskPriorities u.id }

/-- The lists the useBoard hook returns to the presentation layer. -/
structure BoardView where
  columns : List Column
  tasks : List Task
deriving DecidableEq, Repr

/-- The return value of useBoard: columns is the raw query data, tasks is
optimisticTasks when populated and otherwise the raw query data. -/
def useBoardView (columns : List Column) (tasks : List Task)
    (optimisticTasks : Option (List Task)) : BoardView :=
  { columns := columns, tasks := optimisticTasks.getD tasks }

/-- Insert a task into a position sorted list, keeping it after strictly
smaller positions and before equal or larger ones. -/
def insertByPosition (t : Task) : List Task → List Task
  | [] => [t]
  | x :: xs => if x.position < t.position then x :: insertByPosition t xs else t :: x :: xs

/-- Stable ascending sort by position: the model of Array sort with the
comparator subtracting positions (stable per the ECMAScript spec). -/
def sortByPosition : List Task → List Task
  | [] => []
  | x :: xs => insertByPosition x (sortByPosition xs)

/-- The action issued by the drag handler at the end of a drag. -/
inductive DragAction where
  | noAction
  | move (taskId columnId : String) (newPosition : Int)
  | reorder (updates : List TaskUpdate)
deriving DecidableEq, Repr

/-- handleDragEnd from App: when the drop target id is no task id it is a
column, and the move is issued only when the dragged task changes column; when
the drop target is a task, the tasks of that column are sorted by position and
the batch assigns position equal to index in that sorted order, with a column
fixup for a cross column drag. -/
def handleDragEnd (tasks : List Task) (activeId overId : String) : DragAction :=
  match tasks.find? (fun t => t.id == activeId) with
  | none => DragAction.noAction
  | some activeTask =>
    if tasks.any (fun t => t.id == overId) then
      match tasks.find? (fun t => t.id == overId) with
      | none => DragAction.noAction
      | some overTask =>
        let columnTasks := tasks.filter fun t => t.column_id == overTask.column_id
        let sortedTasks := sortByPosition columnTasks
        match sortedTasks.findIdx? (fun t => t.id == overTask.id) with
        | none => DragAction.noAction
        | some _ =>
          let updates := sortedTasks.enum.map fun p =>
            TaskUpdate.mk p.2.id (Int.ofNat p.1) overTask.column_id
          let updates2 :=
            if activeTask.column_id ≠ overTask.column_id then
              updates.map fun u =>
                if u.id == activeTask.id then { u with column_id := overTask.column_id } else u
            else updates
          DragAction.reorder updates2
    else
      let columnId := overId
      let columnTasks := tasks.filter fun t => t.column_id == columnId
      let newPosition : Int := columnTasks.length
      if activeTask.column_id ≠ columnId then
        DragAction.move activeTask.id columnId newPosition
      else DragAction.noAction

/-- Channel statuses delivered to the subscribe callback. -/
inductive ChannelStatus where
  | SUBSCRIBED
  | TIMED_OUT
  | CLOSED
  | CHANNEL_ERROR
deriving DecidableEq, Repr

/-- Postgres change event types. -/
inductive ChangeEventType where
  | INSERT
  | UPDATE
  | DELETE
deriving DecidableEq, Repr

/-- A change notification: its event type and the client that caused it. The
handlers never inspect the origin. -/
structure ChangeEvent where
  eventType : ChangeEventType
  originClientId : String
deriving DecidableEq, Repr

/-- Number of fetchData calls issued by the subscribe status callback of
useSupabaseQuery for one status notification. -/
def subscribeStatusFetches (status : ChannelStatus) (isMounted isSubscribed : Bool) : Nat :=
  if status = ChannelStatus.SUBSCRIBED ∧ isMounted = true ∧ isSubscribed = true then 1 else 0

/-- Number of fetchData calls issued by the postgres change callback of
useSupabaseQuery for one event. -/
def changeEventFetches (_e : ChangeEvent) (isMounted : Bool) : Nat :=
  if isMounted then 1 else 0

/-- Number of refetchTasks calls issued by the tasks channel handler installed
by useBoard for one event. -/
def boardTasksChannelFetches (e : ChangeEvent) : Nat :=
  match e.eventType with
  | ChangeEventType.INSERT => 1
  | ChangeEventType.UPDATE => 1
  | ChangeEventType.DELETE => 1

/-- The data held after fetchData ran with the given fetch result: on a forced
refresh the result always replaces the snapshot. -/
def fetchDataResult (forceRefresh : Bool) (current result : List Task) : List Task :=
  if forceRefresh = true ∨ result ≠ current then result else current

/-- Scenario fixtures. -/
def taskA : Task :=
  { id := "A", title := "Task A", priority := Priority.medium, column_id := "todo"
    position := 0, user_id := "u", created_at := "t0", updated_at := "t0" }

def taskB : Task :=
  { id := "B", title := "Task B", priority := Priority.low, column_id := "todo"
    position := 1, user_id := "u", created_at := "t0", updated_at := "t0" }

def taskC : Task :=
  { id := "C", title := "Task C", priority := Priority.high, column_id := "todo"
    position := 2, user_id := "u", created_at := "t0", updated_at := "t0" }

def taskX : Task :=
  { id := "X", title := "Task X", priority := Priority.low, column_id := "done"
    position := 0, user_id := "u", created_at := "t0", updated_at := "t0" }

def taskY : Task :=
  { id := "Y", title := "Task Y", priority := Priority.high, column_id := "done"
    position := 1, user_id := "u", created_at := "t0", updated_at := "t0" }

def colTodo : Column :=
  { id := "todo", title := "To Do", position := 0, user_id := "u"
    created_at := "t0", updated_at := "t0" }

def scenarioATasks : List Task := [taskA, taskB, taskC]

/-- Claim C1: in Scenario A, with column todo holding tasks A at zero, B at one
and C at two, dragging task C onto task A (intent: order C, A, B) emits the
batch assigning A to zero, B to one and C to two, renumbering the current
sorted order instead of the intended order C to zero, A to one, B to two: the
drag handler never incorporates the dragged task target index, so the reorder
intent is lost. -/
theorem dragEnd_ignores_reorder_intent :
    handleDragEnd scenarioATasks "C" "A" =
      DragAction.reorder
        [TaskUpdate.mk "A" 0 "todo", TaskUpdate.mk "B" 1 "todo", TaskUpdate.mk "C" 2 "todo"] ∧
    DragAction.reorder
        [TaskUpdate.mk "A" 0 "todo", TaskUpdate.mk "B" 1 "todo", TaskUpdate.mk "C" 2 "todo"] ≠
      DragAction.reorder
        [TaskUpdate.mk "C" 0 "todo", TaskUpdate.mk "A" 1 "todo", TaskUpdate.mk "B" 2 "todo"] := by
  exact ⟨by decide, by decide⟩

/-- Claim C2, counterexample: moving task A, already at position zero of column
todo, to column todo position zero is not a no-op: handleMoveTask issues a
remote batch write and the cached task list changes (the other tasks of the
column are shifted up by one). -/
theorem moveTask_same_position_issues_writes :
    (handleMoveTask (some scenarioATasks) scenarioATasks "A" "todo" 0 "t1" false).writes ≠ [] ∧
    (handleMoveTask (some scenarioATasks) scenarioATasks "A" "todo" 0 "t1" false).cache ≠
      some scenarioATasks := by
  exact ⟨by decide, by decide⟩

/-- Claim C6, counterexample: the presentation layer does not always read the
working view. Before the optimistic task cache is populated the hook exposes
the raw confirmed task snapshot, and the exposed column list is always the raw
confirmed column snapshot even while an optimistic task state exists. -/
theorem boardView_exposes_confirmed_snapshot :
    (useBoardView [colTodo] [taskA] none).tasks = [taskA] ∧
    (useBoardView [colTodo] [taskA] (some [taskB])).columns = [colTodo] := by
  exact ⟨rfl, rfl⟩

/-- Claim C6, amended: the exposed task list is the optimistic working list
whenever it has been populated and falls back to the raw confirmed snapshot
before then; the exposed column list is always the raw confirmed column
snapshot, columns having no optimistic overlay. -/
theorem boardView_exposure_amended (cols : List Column) (tasks w : List Task)
    (o : Option (List Task)) :
    (useBoardView cols tasks (some w)).tasks = w ∧
    (useBoardView cols tasks none).tasks = tasks ∧
    (useBoardView cols tasks o).columns = cols := by
  exact ⟨rfl, rfl, rfl⟩

/-- Claim C10: every task mutation is a silent no-op on an unpopulated cache:
no remote write, cache still unpopulated, no error; and handleMoveTask behaves
the same way when the task id is absent from the cache, leaving the cache
unchanged. -/
theorem unpopulated_cache_noop (server : List Task) (op : TaskOp) (now : String)
    (remoteFails : Bool) (tasks : List Task) (taskId c : String) (p : Int)
    (h : taskId ∉ tasks.map Task.id) :
    runTaskOp none server op now remoteFails = OpResult.mk none none [] ∧
    runTaskOp (some tasks) server (TaskOp.move taskId c p) now remoteFails =
      OpResult.mk (some tasks) none [] := by
  constructor
  · cases op <;>
      simp [runTaskOp, handleCreateTask, handleUpdateTask, handleDeleteTask,
        handleMoveTask, handleReorderTasks]
  · have hfind : tasks.find? (fun t => t.id == taskId) = none := by
      apply List.find?_eq_none.mpr
      intro t ht
      simp only [beq_iff_eq]
      intro heq
      exact h (heq ▸ List.mem_map_of_mem Task.id ht)
    simp [runTaskOp, handleMoveTask, hfind]

/-- Claim C10, witness: on the unpopulated cache a delete is a silent no-op,
and moving an id absent from the cache is a silent no-op. -/
theorem unpopulated_cache_noop_witness :
    runTaskOp none [] (TaskOp.delete "A") "t1" true = OpResult.mk none none [] ∧
    runTaskOp (some [taskA]) [] (TaskOp.move "Z" "done" 0) "t1" false =
      OpResult.mk (some [taskA]) none [] :=
  unpopulated_cache_noop [] (TaskOp.delete "A") "t1" true [taskA] "Z" "done" 0 (by decide)

/-- Claim C4: for every task mutation, if the remote write fails then the
handler refetches the server state, so the resulting working list equals the
server state as it stood before the optimistic apply (a failed write changes
nothing on the server); in particular no id absent from the server survives,
so a temporary optimistically created task disappears, and the error is
surfaced and rethrown to the caller. -/
theorem remote_failure_rollback (tasks server : List Task) (op : TaskOp) (now : String)
    (h : (runTaskOp (some tasks) server op now true).writes ≠ []) :
    (runTaskOp (some tasks) server op now true).cache = some server ∧
    ((runTaskOp (some tasks) server op now true).error).isSome = true ∧
    ∀ tid, tid ∉ server.map Task.id →
      ∀ l, (runTaskOp (some tasks) server op now true).cache = some l →
        tid ∉ l.map Task.id := by
  have hmain : (runTaskOp (some tasks) server op now true).cache = some server ∧
      ((runTaskOp (some tasks) server op now true).error).isSome = true := by
    cases op with
    | create title columnId priority tempId created =>
        simp [runTaskOp, handleCreateTask]
    | update id patch => simp [runTaskOp, handleUpdateTask]
    | delete id => simp [runTaskOp, handleDeleteTask]
    | move taskId newColumnId newPosition =>
        cases hfind : tasks.find? (fun t => t.id == taskId) with
        | none =>
            exfalso
            apply h
            simp [runTaskOp, handleMoveTask, hfind]
        | some t => simp [runTaskOp, handleMoveTask, hfind]
    | reorder updates => simp [runTaskOp, handleReorderTasks]
  refine ⟨hmain.1, hmain.2, ?_⟩
  intro tid htid l hl
  rw [hmain.1] at hl
  cases hl
  exact htid

/-- Claim C2, amended: moveTask itself performs no same-position detection; for
a task present in the cache, moving it to its current column and current
position still issues one remote batch write. The only no-op detection is in
the drag handler, which skips the move entirely when a task is dropped onto
the column it already occupies. -/
theorem moveTask_noop_located_in_dragEnd (tasks server : List Task) (t : Task) (now : String)
    (hfind : tasks.find? (fun x => x.id == t.id) = some t)
    (hcol : ∀ x ∈ tasks, x.id ≠ t.column_id) :
    handleDragEnd tasks t.id t.column_id = DragAction.noAction ∧
    (handleMoveTask (some tasks) server t.id t.column_id t.position now false).writes =
      [RemoteWrite.upsertPositions (moveTaskUpdates tasks t.id t.column_id t.position)] ∧
    (handleMoveTask (some tasks) server t.id t.column_id t.position now false).writes ≠ [] := by
  have hany : (tasks.any fun x => x.id == t.column_id) = false := by
    rw [List.any_eq_false]
    intro x hx
    simp only [beq_iff_eq]
    exact hcol x hx
  refine ⟨?_, ?_, ?_⟩
  · simp [handleDragEnd, hfind, hany]
  · simp [handleMoveTask, hfind]
  · simp [handleMoveTask, hfind]

/-- Claim C2, amended, witness: with tasks A, B, C in column todo, dropping A
onto its own column issues no move, while calling moveTask with the current
column and position of A still issues a remote write. -/
theorem moveTask_noop_located_in_dragEnd_witness :
    handleDragEnd scenarioATasks "A" "todo" = DragAction.noAction ∧
    (handleMoveTask (some scenarioATasks) scenarioATasks "A" "todo" 0 "t1" false).writes ≠
      [] :=
  have h := moveTask_noop_located_in_dragEnd scenarioATasks scenarioATasks taskA "t1"
    (by decide) (by decide)
  ⟨h.1, h.2.2⟩

/-- Claim C3: the batch built by moveTask for destination column c and position
p contains, for every other task of c, the task shifted up by one when its
position is at least p and unchanged otherwise, contains the moved task at
position p, targets column c in every entry, and contains nothing else. -/
theorem moveTask_batch_spec (tasks : List Task) (taskId c : String) (p : Int) :
    (∀ t ∈ tasks, t.column_id = c → t.id ≠ taskId →
        TaskUpdate.mk t.id (if t.position ≥ p then t.position + 1 else t.position) c ∈
          moveTaskUpdates tasks taskId c p) ∧
    TaskUpdate.mk taskId p c ∈ moveTaskUpdates tasks taskId c p ∧
    (∀ u ∈ moveTaskUpdates tasks taskId c p, u.column_id = c) ∧
    (∀ u ∈ moveTaskUpdates tasks taskId c p,
        u = TaskUpdate.mk taskId p c ∨
        ∃ t, t ∈ tasks ∧ t.column_id = c ∧ t.id ≠ taskId ∧
          u = TaskUpdate.mk t.id (if t.position ≥ p then t.position + 1 else t.position) c) := by
  refine ⟨?_, ?_, ?_, ?_⟩
  · intro t ht hc hi
    simp only [moveTaskUpdates, List.mem_append, List.mem_map]
    left
    exact ⟨t, by simp [List.mem_filter, ht, hc, hi], rfl⟩
  · simp [moveTaskUpdates]
  · intro u hu
    simp only [moveTaskUpdates, List.mem_append, List.mem_map, List.mem_filter,
      List.mem_singleton] at hu
    rcases hu with ⟨t, _, rfl⟩ | rfl
    · rfl
    · rfl
  · intro u hu
    simp only [moveTaskUpdates, List.mem_append, List.mem_map, List.mem_filter,
      List.mem_singleton, Bool.and_eq_true, beq_iff_eq, bne_iff_ne] at hu
    rcases hu with ⟨t, ⟨ht, hc, hi⟩, rfl⟩ | rfl
    · exact Or.inr ⟨t, ht, hc, hi, rfl⟩
    · exact Or.inl rfl

/-- Claim C3, witness, Scenario B: moving task A into column done holding X at
zero and Y at one, at index one, yields entries X at zero, Y at two and A at
one, each targeting column done. -/
theorem moveTask_batch_spec_witness :
    TaskUpdate.mk "X" 0 "done" ∈ moveTaskUpdates [taskA, taskX, taskY] "A" "done" 1 ∧
    TaskUpdate.mk "Y" 2 "done" ∈ moveTaskUpdates [taskA, taskX, taskY] "A" "done" 1 ∧
    TaskUpdate.mk "A" 1 "done" ∈ moveTaskUpdates [taskA, taskX, taskY] "A" "done" 1 := by
  have h := moveTask_batch_spec [taskA, taskX, taskY] "A" "done" 1
  refine ⟨?_, ?_, h.2.1⟩
  · have hx := h.1 taskX (by decide) (by decide) (by decide)
    simpa using hx
  · have hy := h.1 taskY (by decide) (by decide) (by decide)
    simpa using hy

/-- Claim C9: on a status notification while mounted and subscribed, entering
SUBSCRIBED issues exactly one forced fetch and any other status issues none;
every change event while mounted issues exactly one forced fetch, independent
of the originating client; the tasks channel handler of useBoard refetches
once for every event type; and a forced fetch always replaces the snapshot
with the fresh result. -/
theorem realtime_refresh_per_event (s : ChannelStatus) (e e2 : ChangeEvent)
    (current result : List Task) :
    subscribeStatusFetches ChannelStatus.SUBSCRIBED true true = 1 ∧
    (s ≠ ChannelStatus.SUBSCRIBED → subscribeStatusFetches s true true = 0) ∧
    changeEventFetches e true = 1 ∧
    changeEventFetches e true = changeEventFetches e2 true ∧
    boardTasksChannelFetches e = 1 ∧
    fetchDataResult true current result = result := by
  refine ⟨rfl, ?_, rfl, rfl, ?_, ?_⟩
  · intro hs
    simp [subscribeStatusFetches, hs]
  · rcases e with ⟨et, o⟩
    cases et <;> rfl
  · simp [fetchDataResult]

/-- Claim C9, witness: a CLOSED status issues no fetch, a SUBSCRIBED status
issues one, and an insert event from another client triggers one refetch of
the tasks collection. -/
theorem realtime_refresh_per_event_witness :
    subscribeStatusFetches ChannelStatus.CLOSED true true = 0 ∧
    subscribeStatusFetches ChannelStatus.SUBSCRIBED true true = 1 ∧
    boardTasksChannelFetches (ChangeEvent.mk ChangeEventType.INSERT "other-client") = 1 :=
  have h := realtime_refresh_per_event ChannelStatus.CLOSED
    (ChangeEvent.mk ChangeEventType.INSERT "other-client")
    (ChangeEvent.mk ChangeEventType.DELETE "this-client") [] []
  ⟨h.2.1 (by decide), h.1, h.2.2.2.2.1⟩

/-- Claim C4, witness: a failing update of task A with cached list containing A
and empty server state rolls the cache back to the empty server list and
surfaces an error. -/
theorem remote_failure_rollback_witness :
    (runTaskOp (some [taskA]) []
        (TaskOp.update "A" (TaskPatch.mk (some "New") none none none)) "t1" true).cache =
      some [] ∧
    ((runTaskOp (some [taskA]) []
        (TaskOp.update "A" (TaskPatch.mk (some "New") none none none)) "t1" true).error).isSome =
      true :=
  ⟨(remote_failure_rollback [taskA] []
      (TaskOp.update "A" (TaskPatch.mk (some "New") none none none)) "t1" (by decide)).1,
   (remote_failure_rollback [taskA] []
      (TaskOp.update "A" (TaskPatch.mk (some "New") none none none)) "t1" (by decide)).2.1⟩

lemma le_foldl_max (a : Int) (l : List Int) : a ≤ l.foldl max a := by
  induction l generalizing a with
  | nil => exact le_refl a
  | cons x xs ih => exact le_trans (le_max_left a x) (ih (max a x))

lemma elem_le_foldl_max (a : Int) (l : List Int) : ∀ x ∈ l, x ≤ l.foldl max a := by
  induction l generalizing a with
  | nil =>
    intro x hx
    simp at hx
  | cons y ys ih =>
    intro x hx
    rcases List.mem_cons.mp hx with rfl | hx
    · exact le_trans (le_max_right a x) (le_foldl_max (max a x) ys)
    · exact ih (max a y) x hx

lemma foldl_max_mem (a : Int) (l : List Int) : l.foldl max a = a ∨ l.foldl max a ∈ l := by
  induction l generalizing a with
  | nil => exact Or.inl rfl
  | cons y ys ih =>
    rcases ih (max a y) with h | h
    · rcases max_choice a y with h2 | h2
      · exact Or.inl (by rw [List.foldl_cons, h, h2])
      · refine Or.inr ?_
        rw [List.foldl_cons, h, h2]
        exact List.mem_cons_self y ys
    · exact Or.inr (List.mem_cons_of_mem y h)

/-- Claim C8: creating a column assigns one past the maximum existing column
position (for column sets with the nonnegative positions every reachable state
has) and zero when no column exists; creating a task assigns one past the
maximum position among the destination column tasks and zero when that column
holds no task. -/
theorem creation_position_assignment (columns : List Column) (tasks : List Task)
    (columnId : String) :
    (columns = [] → handleCreateColumnPosition (some columns) = 0) ∧
    ((∀ c ∈ columns, 0 ≤ c.position) → columns ≠ [] →
      ∃ c, c ∈ columns ∧ (∀ d ∈ columns, d.position ≤ c.position) ∧
        handleCreateColumnPosition (some columns) = c.position + 1) ∧
    (tasks.filter (fun t => t.column_id == columnId) = [] →
      createTaskPosition tasks columnId = 0) ∧
    (tasks.filter (fun t => t.column_id == columnId) ≠ [] →
      ∃ t, t ∈ tasks ∧ t.column_id = columnId ∧
        (∀ u ∈ tasks, u.column_id = columnId → u.position ≤ t.position) ∧
        createTaskPosition tasks columnId = t.position + 1) := by
  have hmemF : ∀ u : Task, u ∈ tasks.filter (fun t => t.column_id == columnId) ↔
      (u ∈ tasks ∧ u.column_id = columnId) := by
    intro u
    simp [List.mem_filter]
  refine ⟨?_, ?_, ?_, ?_⟩
  · intro h
    subst h
    decide
  · intro hpos hne
    have key : columns.foldl (fun m c => max m c.position) (-1) =
        (columns.map Column.position).foldl max (-1) :=
      (List.foldl_map Column.position max columns (-1)).symm
    rcases foldl_max_mem (-1) (columns.map Column.position) with h | h
    · exfalso
      obtain ⟨c0, hc0⟩ := List.exists_mem_of_ne_nil columns hne
      have h1 : c0.position ≤ (columns.map Column.position).foldl max (-1) :=
        elem_le_foldl_max _ _ _ (List.mem_map_of_mem Column.position hc0)
      have h2 : (0 : Int) ≤ c0.position := hpos c0 hc0
      omega
    · obtain ⟨c, hc, hcp⟩ := List.mem_map.mp h
      refine ⟨c, hc, ?_, ?_⟩
      · intro d hd
        have := elem_le_foldl_max (-1) (columns.map Column.position) d.position
          (List.mem_map_of_mem Column.position hd)
        rw [← hcp] at this
        exact this
      · show columns.foldl (fun m c => max m c.position) (-1) + 1 = c.position + 1
        rw [key, hcp]
  · intro h
    unfold createTaskPosition
    rw [h]
  · intro hne
    obtain ⟨t0, rest, hL⟩ := List.exists_cons_of_ne_nil hne
    have hval : createTaskPosition tasks columnId =
        rest.foldl (fun m x => max m x.position) t0.position + 1 := by
      unfold createTaskPosition
      rw [hL]
    have key : rest.foldl (fun m x => max m x.position) t0.position =
        (rest.map Task.position).foldl max t0.position :=
      (List.foldl_map Task.position max rest t0.position).symm
    have ht0F : t0 ∈ tasks.filter (fun t => t.column_id == columnId) := by
      rw [hL]
      exact List.mem_cons_self t0 rest
    have hboundF : ∀ u ∈ tasks.filter (fun t => t.column_id == columnId),
        u.position ≤ (rest.map Task.position).foldl max t0.position := by
      intro u hu
      rw [hL] at hu
      rcases List.mem_cons.mp hu with rfl | hu
      · exact le_foldl_max u.position (rest.map Task.position)
      · exact elem_le_foldl_max _ _ _ (List.mem_map_of_mem Task.position hu)
    rcases foldl_max_mem t0.position (rest.map Task.position) with h | h
    · refine ⟨t0, ((hmemF t0).mp ht0F).1, ((hmemF t0).mp ht0F).2, ?_, ?_⟩
      · intro u hu hcu
        have := hboundF u ((hmemF u).mpr ⟨hu, hcu⟩)
        rw [h] at this
        exact this
      · rw [hval, key, h]
    · obtain ⟨t, htr, htp⟩ := List.mem_map.mp h
      have htF : t ∈ tasks.filter (fun x => x.column_id == columnId) := by
        rw [hL]
        exact List.mem_cons_of_mem t0 htr
      refine ⟨t, ((hmemF t).mp htF).1, ((hmemF t).mp htF).2, ?_, ?_⟩
      · intro u hu hcu
        have := hboundF u ((hmemF u).mpr ⟨hu, hcu⟩)
        rw [← htp] at this
        exact this
      · rw [hval, key, htp]

/-- Claim C8, witness, Scenario C: with no columns the new column gets position
zero; with one column at position zero the next column gets position one; a
task created into the empty column todo gets position zero with no tasks
present, and position one when task A already sits at position zero. -/
theorem creation_position_assignment_witness :
    handleCreateColumnPosition (some []) = 0 ∧
    handleCreateColumnPosition (some [colTodo]) = 1 ∧
    createTaskPosition [] "todo" = 0 ∧
    createTaskPosition [taskA] "todo" = 1 := by
  have h0 := (creation_position_assignment [] [] "todo").1 rfl
  have h1 := (creation_position_assignment [colTodo] [] "todo").2.1 (by decide) (by decide)
  have h2 := (creation_position_assignment [] [] "todo").2.2.1 (by decide)
  have h3 := (creation_position_assignment [] [taskA] "todo").2.2.2 (by decide)
  refine ⟨h0, ?_, h2, ?_⟩
  · obtain ⟨c, hc, _, hval⟩ := h1
    have : c = colTodo := by simpa using hc
    subst this
    rw [hval]
    decide
  · obtain ⟨t, ht, _, _, hval⟩ := h3
    have : t = taskA := by simpa using ht
    subst this
    rw [hval]
    decide

/-- Claim C7: the commit updater of handleCreateTask, applied when the
provisional id is absent from the working list, returns the list unchanged (a
total function, so nothing is thrown) and in particular does not insert the
server entity; when some index holds the provisional id, the server entity
replaces it at that same index and every other index is untouched. -/
theorem commit_missing_provisional_stable (l : List Task) (tempId : String) (created : Task) :
    (tempId ∉ l.map Task.id → commitCreatedTask (some l) tempId created = some l) ∧
    (commitList l tempId created).length = l.length ∧
    (∀ i, ∀ h : i < l.length, l[i].id = tempId →
      (commitList l tempId created)[i]? = some created) ∧
    (∀ i, ∀ h : i < l.length, l[i].id ≠ tempId →
      (commitList l tempId created)[i]? = l[i]?) := by
  refine ⟨?_, List.length_map l _, ?_, ?_⟩
  · intro hmem
    simp only [commitCreatedTask, Option.some.injEq]
    have hfix : ∀ t ∈ l, (if t.id == tempId then created else t) = t := by
      intro t ht
      have hne : t.id ≠ tempId := fun he => hmem (he ▸ List.mem_map_of_mem Task.id ht)
      simp [hne]
    unfold commitList
    rw [List.map_congr_left hfix]
    simp
  · intro i h hid
    unfold commitList
    rw [List.getElem?_map, List.getElem?_eq_getElem h]
    simp [hid]
  · intro i h hid
    unfold commitList
    rw [List.getElem?_map, List.getElem?_eq_getElem h]
    simp [hid]

/-- Claim C7, witness: committing server row B for the absent provisional id Z
leaves the singleton list holding A unchanged, and committing B for the
present provisional id A replaces it at index zero. -/
theorem commit_missing_provisional_stable_witness :
    commitCreatedTask (some [taskA]) "Z" taskB = some [taskA] ∧
    (commitList [taskA] "A" taskB)[0]? = some taskB :=
  have h := commit_missing_provisional_stable [taskA] "Z" taskB
  have h2 := commit_missing_provisional_stable [taskA] "A" taskB
  ⟨h.1 (by decide), h2.2.2.1 0 (by decide) (by decide)⟩

lemma jsMapGet_map {α : Type} (l : List Task) (f : Task → α) (key : String) :
    jsMapGet (l.map fun t => (t.id, f t)) key =
      Option.map f (l.reverse.find? fun t => t.id == key) := by
  unfold jsMapGet
  rw [← List.map_reverse, List.find?_map]
  have hp : ((fun p : String × α => p.1 == key) ∘ fun t : Task => (t.id, f t)) =
      fun t : Task => t.id == key := rfl
  rw [hp]
  cases l.reverse.find? fun t : Task => t.id == key <;> rfl

/-- Claim C5: every record the updateTaskPositions gateway sends carries, in
addition to id, position and column, the current title and priority of some
stored task with that id, looked up from the store before the write, provided
every id in the batch denotes a stored task. -/
theorem updateTaskPositions_batch_complete (store : List Task) (userId : String)
    (updates : List TaskUpdate)
    (h : ∀ u ∈ updates, ∃ t ∈ store, t.id = u.id) :
    ∀ r ∈ updateTaskPositionsRecords store userId updates,
      ∃ t ∈ store, t.id = r.id ∧ r.title = some t.title ∧ r.priority = some t.priority := by
  intro r hr
  simp only [updateTaskPositionsRecords, List.mem_map] at hr
  obtain ⟨u, hu, rfl⟩ := hr
  obtain ⟨t, ht, hid⟩ := h u hu
  have htc : t ∈ store.filter (fun t => updates.any fun v => v.id == t.id) := by
    rw [List.mem_filter]
    refine ⟨ht, ?_⟩
    rw [List.any_eq_true]
    exact ⟨u, hu, by simp [hid]⟩
  have hsome : ((store.filter (fun t => updates.any fun v => v.id == t.id)).reverse.find?
      fun x => x.id == u.id).isSome = true := by
    rw [List.find?_isSome]
    exact ⟨t, List.mem_reverse.mpr htc, by simp [hid]⟩
  obtain ⟨t2, ht2⟩ := Option.isSome_iff_exists.mp hsome
  have ht2mem : t2 ∈ store := by
    have hm := List.mem_of_find?_eq_some ht2
    rw [List.mem_reverse] at hm
    exact (List.mem_filter.mp hm).1
  have ht2id : t2.id = u.id := by
    have := List.find?_some ht2
    simpa using this
  refine ⟨t2, ht2mem, ht2id, ?_, ?_⟩
  · simp only [jsMapGet_map, ht2]
    rfl
  · simp only [jsMapGet_map, ht2]
    rfl

/-- Claim C5, witness: the single record for a position-only update of task X
carries the stored title and priority of X. -/
theorem updateTaskPositions_batch_complete_witness :
    (UpsertRecord.mk "X" 5 "done" "u" (some "Task X") (some Priority.low)).title =
      some taskX.title ∧
    (UpsertRecord.mk "X" 5 "done" "u" (some "Task X") (some Priority.low)).priority =
      some taskX.priority := by
  have h := updateTaskPositions_batch_complete [taskX] "u" [TaskUpdate.mk "X" 5 "done"]
    (by decide) (UpsertRecord.mk "X" 5 "done" "u" (some "Task X") (some Priority.low))
    (by decide)
  obtain ⟨t, htmem, _, htitle, hprio⟩ := h
  have : t = taskX := by simpa using htmem
  subst this
  exact ⟨htitle, hprio⟩

end TaskBoard
